import Mathlib

/-!
Verification of `srccat` (`main.go`): a shallow embedding of the
traversal-and-filtering engine, the per-file processing pipeline and the
startup validation, with theorems settling the specification claims.

Conventions of the embedding:
* file bytes are `List Nat` (each entry one byte of the Go `[]byte`);
* the Go `FileContent.Content` string, initialised to `""` and set only for
  non-binary reads, is a `List Nat`; the empty list models the unset/empty
  string, which `omitempty` leaves absent from JSON output;
* fallible OS calls (`os.Stat`, `os.ReadFile`) are `Option`-valued fields of
  a `FileState` describing the file at processing time;
* the gitignore matcher and the compiled user glob patterns are external
  libraries, modelled as abstract boolean predicates on the relative path,
  exactly as `shouldExclude` consults them;
* `os.PathSeparator` is `"/"` (the tool's target platform).
-/

namespace Srccat

/-- `maxFileSize = 1 * 1024 * 1024` from the `const` block of main.go. -/
def maxFileSize : Nat := 1 * 1024 * 1024

/-- `os.PathSeparator` on the target platform. -/
def pathSep : String := "/"

/-- The state of one file as the OS calls in `processFile` observe it:
`statSize = none` models an `os.Stat` failure, `content = none` models an
`os.ReadFile` failure. -/
structure FileState where
  statSize : Option Nat
  content : Option (List Nat)
deriving DecidableEq, Repr

/-- The Go struct `FileContent{Path string; Content string}`; `content = []`
models the empty `Content` string, which `json:"content,omitempty"` omits. -/
structure FileContent where
  path : String
  content : List Nat
deriving DecidableEq, Repr

/-- The four ways one `processFile` call can end, read off its control flow:
the three early `return`s (stat error at line 167, oversize at line 173, read
error at line 181) and the fall-through that appends a record. -/
inductive ProcOutcome where
  | statError
  | tooLarge (size : Nat)
  | readError
  | ok (record : FileContent)
deriving DecidableEq, Repr

/-- The record a `processFile` call appends to the shared `files` slice, if
any: only the fall-through branch appends. -/
def ProcOutcome.record? : ProcOutcome → Option FileContent
  | .ok r => some r
  | _ => none

/-- Whether the `progressChan <- relativePath` send at line 196 is reached:
it sits after the append, past all three early returns. -/
def progressSent : ProcOutcome → Bool
  | .ok _ => true
  | _ => false

/-- `isBinary` from main.go: truncate the content to its first 1024 bytes,
then report whether any byte is the null byte. -/
def isBinary (content : List Nat) : Bool :=
  (content.take 1024).any (fun b => b == 0)

/-- `processFile` from main.go as a function of the observed `FileState`:
re-stat (fail ⇒ `statError`); skip files whose size strictly exceeds
`maxFileSize`; build the record with the relative path; when content is
requested, read it (fail ⇒ `readError`) and attach it only if not binary. -/
def processFile (fs : FileState) (relativePath : String) (readContent : Bool) :
    ProcOutcome :=
  match fs.statSize with
  | none => .statError
  | some size =>
    if size > maxFileSize then .tooLarge size
    else
      if readContent then
        match fs.content with
        | none => .readError
        | some bytes =>
          if isBinary bytes then .ok ⟨relativePath, []⟩
          else .ok ⟨relativePath, bytes⟩
      else .ok ⟨relativePath, []⟩

/-- Whether the `os.ReadFile` call inside `processFile` is reached: only
after a successful stat, a passing size check, and with `readContent` set. -/
def processReadsFile (fs : FileState) (readContent : Bool) : Bool :=
  match fs.statSize with
  | none => false
  | some size => if size > maxFileSize then false else readContent

/-- The fixed `excludedDirs` list of `shouldExclude`. -/
def excludedDirs : List String :=
  [".git", "node_modules", "build", "dist", "out", ".cache", ".tmp",
   ".vscode", ".idea", ".next", "public", ".terraform"]

/-- The fixed `excludedPatterns` suffix list of `shouldExclude`. -/
def excludedPatterns : List String :=
  [".json", ".log", ".bak", "~", ".DS_Store",
   "package-lock.json", "yarn.lock", ".d.ts", "config.mjs",
   ".lock.hcl", ".ico", ".tfstate",
   ".backup", ".pptx", ".ppt", ".doc", ".docx", ".xls", ".xlsx", ".mod", ".sum"]

/-- `strings.HasPrefix p s` of the Go standard library, computed over the
character lists of the two strings. -/
def strStarts (p s : String) : Bool := p.data.isPrefixOf s.data

/-- `strings.HasSuffix p s` of the Go standard library, computed over the
character lists of the two strings. -/
def strEnds (p s : String) : Bool := p.data.isSuffixOf s.data

/-- `shouldExclude` from main.go, over the entry's base name and its path
relative to the scan root.  `matcher` stands for the gitignore matcher call
`matcher.Match([]string{relativePath}, false)` and `custom` for the compiled
`customExcludePatterns` globs, each abstracted to a predicate on the string
`shouldExclude` hands it.  The rules in source order: excluded directory name
(exact name match, or the name followed by the path separator starting the
relative path), excluded suffix, name starting with `.env`, the literal name
`.gitignore`, custom globs, gitignore matcher. -/
def shouldExclude (name relativePath : String) (matcher : String → Bool)
    (custom : List (String → Bool)) : Bool :=
  excludedDirs.any
      (fun dir => name == dir || strStarts (dir ++ pathSep) relativePath)
    || excludedPatterns.any (fun pat => strEnds pat name)
    || strStarts ".env" name
    || name == ".gitignore"
    || custom.any (fun pattern => pattern relativePath)
    || matcher relativePath

/-- A directory tree as `filepath.Walk` sees it: regular files carry the
`FileState` that `processFile` will observe; the children of a directory are
listed in the order the walk visits them (`filepath.Walk` visits them in
lexical name order, so the model takes each directory's listing already
lexically sorted). -/
inductive FSEntry where
  | file (name : String) (fs : FileState)
  | dir (name : String) (children : List FSEntry)
deriving Repr

/-- The base name of an entry (`info.Name()` in the walk callback). -/
def FSEntry.name : FSEntry → String
  | .file n _ => n
  | .dir n _ => n

/-- `filepath.Rel(baseDir, path)` of a child of the directory whose own
relative path is `dirRel`: the root has relative path `"."`, its children
bare names, deeper entries `parent/name`. -/
def childRel (dirRel name : String) : String :=
  if dirRel == "." then name else dirRel ++ pathSep ++ name

mutual

/-- The walk callback of `listFiles`, restricted to its dispatch effect:
`walkEntry se e rel` lists, in visit order, the `(relativePath, FileState)`
pairs handed to a `processFile` goroutine.  An entry with `se` true is a
`return nil` for a file and a `filepath.SkipDir` (prune) for a directory; an
included file is dispatched; an included directory is descended into. -/
def walkEntry (se : String → String → Bool) :
    FSEntry → String → List (String × FileState)
  | .file n fs, rel => if se n rel then [] else [(rel, fs)]
  | .dir n ch, rel => if se n rel then [] else walkChildren se ch rel

/-- Walk of a directory's children list, each at its own relative path. -/
def walkChildren (se : String → String → Bool) :
    List FSEntry → String → List (String × FileState)
  | [], _ => []
  | c :: cs, dirRel =>
    walkEntry se c (childRel dirRel c.name) ++ walkChildren se cs dirRel

end

mutual

/-- All regular files below an entry, with their relative paths: the ground
truth the walk's classification is measured against. -/
def filesUnder : FSEntry → String → List (String × FileState)
  | .file _ fs, rel => [(rel, fs)]
  | .dir _ ch, rel => filesUnderChildren ch rel

/-- All regular files below each entry of a children list. -/
def filesUnderChildren : List FSEntry → String → List (String × FileState)
  | [], _ => []
  | c :: cs, dirRel =>
    filesUnder c (childRel dirRel c.name) ++ filesUnderChildren cs dirRel

end

mutual

/-- The files the walk classifies as excluded: a file whose own entry `se`
rejects, and every file below a pruned directory. -/
def excludedFiles (se : String → String → Bool) :
    FSEntry → String → List (String × FileState)
  | .file n fs, rel => if se n rel then [(rel, fs)] else []
  | .dir n ch, rel =>
    if se n rel then filesUnderChildren ch rel else excludedChildren se ch rel

/-- Excluded files across a children list. -/
def excludedChildren (se : String → String → Bool) :
    List FSEntry → String → List (String × FileState)
  | [], _ => []
  | c :: cs, dirRel =>
    excludedFiles se c (childRel dirRel c.name) ++ excludedChildren se cs dirRel

end

/-- The records accumulated in the shared `files` slice: each dispatched
`(relativePath, FileState)` pair contributes the record its `processFile`
call appends, if any.  The list is in dispatch order; the real run appends in
completion order, a permutation of this (see `RunOutput`). -/
def collectRecords (readContent : Bool)
    (dispatched : List (String × FileState)) : List FileContent :=
  dispatched.filterMap (fun pf => (processFile pf.2 pf.1 readContent).record?)

/-- The records of one full `listFiles` run over the tree `t` (whose root
has relative path `rel`, namely `"."`), in dispatch order. -/
def canonicalRecords (se : String → String → Bool) (t : FSEntry) (rel : String)
    (readContent : Bool) : List FileContent :=
  collectRecords readContent (walkEntry se t rel)

/-- The possible final contents of the `files` slice for one run: the workers
run concurrently and append under the mutex in completion order, so the slice
holds the records of `canonicalRecords` in some scheduling-dependent order. -/
def RunOutput (se : String → String → Bool) (t : FSEntry) (rel : String)
    (readContent : Bool) (out : List FileContent) : Prop :=
  List.Perm out (canonicalRecords se t rel readContent)

/-- The `readContent` argument `listFiles` passes to every `processFile`
call: `format != "list"`. -/
def readContentFlag (format : String) : Bool := format != "list"

/-- `outputList` from main.go: the lines written to stdout, one
`fmt.Printf("- %s\n", file.Path)` per record. -/
def outputList (files : List FileContent) : List String :=
  files.map (fun f => "- " ++ f.path)

/-- The capacity of the progress channel: `make(chan string)` in `listFiles`
creates an unbuffered channel (capacity 0). -/
def progressChanCapacity : Nat := 0

/-- Semantics of a send on a Go channel with `capacity` slots of which
`queued` are occupied: the send completes without a matching receive exactly
when a buffer slot is free; otherwise the sender blocks until a receiver
takes the value. -/
def sendCompletesWithoutReceiver (capacity queued : Nat) : Bool :=
  queued < capacity

/-- How the `Action` closure in `main` ends: an error return feeds
`log.Fatal` (non-zero exit before any traversal), otherwise `listFiles` runs
with the effective format. -/
inductive CliOutcome where
  | error (msg : String)
  | run (format : String)
deriving DecidableEq, Repr

/-- The `Action` closure of `main` up to the `listFiles` call, in source
order: the root-directory existence check, the format check (bypassed when
the list flag is set), the list-flag override of the format, and the
compilation of the custom exclude patterns (`excludeOk` abstracts whether
every `glob.Compile` succeeds). -/
def cliAction (dirExists : Bool) (format : String) (listOnly : Bool)
    (excludeOk : Bool) : CliOutcome :=
  if !dirExists then
    .error "error: specified directory does not exist"
  else if !listOnly && format != "text" && format != "json" then
    .error "error: invalid format specified. Use 'text' or 'json'"
  else
    let format := if listOnly then "list" else format
    if !excludeOk then .error "invalid exclude pattern"
    else .run format

/-- The three recoverable per-file situations of the spec, as `processFile`
observes them: stat failure; size strictly over the cap; read failure (a
read is attempted only when content is requested and the size check passed). -/
def perFileFailure (fs : FileState) (readContent : Bool) : Prop :=
  fs.statSize = none
    ∨ (∃ s, fs.statSize = some s ∧ s > maxFileSize)
    ∨ (readContent = true ∧ fs.content = none
        ∧ ∃ s, fs.statSize = some s ∧ ¬ s > maxFileSize)

/-- An empty gitignore matcher (a tree with no version-control metadata). -/
def noMatcher : String → Bool := fun _ => false

/-- The exclusion decision of a run with no custom patterns and no gitignore
rules: only the built-in rules of `shouldExclude` act. -/
def builtinSE : String → String → Bool :=
  fun n r => shouldExclude n r noMatcher []

/-- A small concrete tree used to instantiate the run-level theorems. -/
def sampleTree : FSEntry :=
  FSEntry.dir "repo"
    [FSEntry.dir "build" [FSEntry.file "x.o" ⟨some 4, some [0, 1]⟩],
     FSEntry.file "a.txt" ⟨some 5, some [104, 105]⟩,
     FSEntry.file "big.bin" ⟨some 2000000, some []⟩]

/-- A 1025-byte content whose only null byte lies beyond the 1024-byte
sample taken by `isBinary`. -/
def boundaryBytes : List Nat := List.replicate 1024 65 ++ [0]

end Srccat

example : Srccat.isBinary [72, 0, 105] = true := by decide

example : Srccat.cliAction true "bogus" true true = Srccat.CliOutcome.run "list" := by
  decide

example :
    Srccat.canonicalRecords (fun n _ => n == "build")
      (Srccat.FSEntry.dir "root"
        [Srccat.FSEntry.dir "build" [Srccat.FSEntry.file "x.o" ⟨some 1, some []⟩],
         Srccat.FSEntry.file "a.txt" ⟨some 5, some [104]⟩]) "." true =
      [⟨"a.txt", [104]⟩] := by decide

example :
    Srccat.shouldExclude "out" "sub/out" (fun _ => false) [] = true := by decide

example :
    Srccat.walkEntry (fun n _ => n == "build")
      (Srccat.FSEntry.dir "root"
        [Srccat.FSEntry.dir "build" [Srccat.FSEntry.file "x.o" ⟨some 1, some []⟩],
         Srccat.FSEntry.file "a.txt" ⟨some 5, some [104]⟩]) "." =
      [("a.txt", ⟨some 5, some [104]⟩)] := by decide

example : Srccat.processFile ⟨some 10, some [72, 105]⟩ "a.txt" true =
    Srccat.ProcOutcome.ok ⟨"a.txt", [72, 105]⟩ := by decide

namespace Srccat

mutual

/-- Partition lemma: below any entry, the files the walk dispatches and the
files it classifies as excluded together are exactly the files present, each
counted once. -/
theorem walk_perm (se : String → String → Bool) :
    (t : FSEntry) → (rel : String) →
      List.Perm (walkEntry se t rel ++ excludedFiles se t rel)
        (filesUnder t rel)
  | .file n fs, rel => by
    by_cases h : se n rel = true
    · simp only [walkEntry, excludedFiles, filesUnder, h, if_true,
        List.nil_append]
      exact List.Perm.refl _
    · simp only [walkEntry, excludedFiles, filesUnder, h, if_false,
        List.append_nil]
      exact List.Perm.refl _
  | .dir n ch, rel => by
    by_cases h : se n rel = true
    · simp only [walkEntry, excludedFiles, filesUnder, h, if_true,
        List.nil_append]
      exact List.Perm.refl _
    · simp only [walkEntry, excludedFiles, filesUnder, h, if_false]
      exact walk_perm_children se ch rel

/-- Partition lemma for the children of a directory. -/
theorem walk_perm_children (se : String → String → Bool) :
    (ch : List FSEntry) → (rel : String) →
      List.Perm (walkChildren se ch rel ++ excludedChildren se ch rel)
        (filesUnderChildren ch rel)
  | [], rel => by
    simp only [walkChildren, excludedChildren, filesUnderChildren,
      List.append_nil]
    exact List.Perm.refl _
  | c :: cs, rel => by
    have h1 := walk_perm se c (childRel rel c.name)
    have h2 := walk_perm_children se cs rel
    simp only [walkChildren, excludedChildren, filesUnderChildren]
    classical
    rw [List.perm_iff_count]
    intro pf
    have k1 := h1.count_eq pf
    have k2 := h2.count_eq pf
    simp only [List.count_append] at k1 k2 ⊢
    omega

end

end Srccat

namespace Srccat

/-- C1: every regular file under the root is classified exactly once, either
dispatched to `processFile` or excluded (the dispatched and excluded files
together are a permutation of all files present), and a directory whose name
`shouldExclude`-style decision rejects is pruned: the walk dispatches nothing
from it and classifies every file beneath it as excluded. -/
theorem c1_walk_classifies_each_file_once (se : String → String → Bool)
    (t : FSEntry) (rel : String) :
    List.Perm (walkEntry se t rel ++ excludedFiles se t rel) (filesUnder t rel)
    ∧ (∀ (n : String) (ch : List FSEntry) (r : String), se n r = true →
        walkEntry se (FSEntry.dir n ch) r = []
        ∧ excludedFiles se (FSEntry.dir n ch) r = filesUnderChildren ch r) := by
  refine ⟨walk_perm se t rel, ?_⟩
  intro n ch r h
  constructor <;> simp [walkEntry, excludedFiles, h]

/-- Witness for C1 at a concrete pruned directory: a `build` directory is
never descended into and its file is classified excluded. -/
theorem c1_witness :
    walkEntry builtinSE
        (FSEntry.dir "build" [FSEntry.file "x.o" ⟨some 1, some []⟩]) "build"
        = []
    ∧ excludedFiles builtinSE
        (FSEntry.dir "build" [FSEntry.file "x.o" ⟨some 1, some []⟩]) "build"
        = filesUnderChildren [FSEntry.file "x.o" ⟨some 1, some []⟩] "build" :=
  (c1_walk_classifies_each_file_once builtinSE
      (FSEntry.dir "build" [FSEntry.file "x.o" ⟨some 1, some []⟩]) "build").2
    "build" [FSEntry.file "x.o" ⟨some 1, some []⟩] "build" (by decide)

/-- C2 counterexample: a dispatched file whose stat fails (and likewise an
oversize file and a failed read) is skipped without the progress send at
line 196 ever being reached, so a notification is not sent regardless of
outcome. -/
theorem c2_counterexample :
    processFile ⟨none, none⟩ "a.txt" true = ProcOutcome.statError
    ∧ progressSent (processFile ⟨none, none⟩ "a.txt" true) = false
    ∧ progressSent (processFile ⟨some 1048577, some []⟩ "b.txt" true) = false
    ∧ progressSent (processFile ⟨some 1, none⟩ "c.txt" true) = false := by
  decide

/-- C2 amended: a progress notification is sent exactly when a record is
produced; a file skipped for a stat failure, oversize, or a read failure
sends none. -/
theorem c2_progress_iff_record (fs : FileState) (rel : String)
    (readContent : Bool) :
    progressSent (processFile fs rel readContent)
      = (processFile fs rel readContent).record?.isSome := by
  cases h : processFile fs rel readContent <;>
    simp [progressSent, ProcOutcome.record?]

/-- C3 counterexample: the progress channel is created by
`make(chan string)` with capacity 0, so a worker's very first send cannot
complete without the reporter receiving it — the channel is neither
unbounded nor buffered. -/
theorem c3_counterexample :
    sendCompletesWithoutReceiver progressChanCapacity 0 = false := by decide

/-- C3 amended: the notification channel is unbuffered; whatever is queued,
a send on it never completes without a matching receive, so a worker does
stall at its notification until the Progress Reporter receives it (the
reporter's receive loop is what keeps completion flowing). -/
theorem c3_channel_unbuffered (queued : Nat) :
    sendCompletesWithoutReceiver progressChanCapacity queued = false := by
  simp [sendCompletesWithoutReceiver, progressChanCapacity]

/-- C4: for a dispatched file whose size passes the cap, a null byte within
the first 1024 content bytes yields a record with the path populated and the
content omitted, while content with no null byte in that window — null bytes
beyond byte 1024 included — is attached in full. -/
theorem c4_binary_sample_capped (bytes : List Nat) (rel : String) (size : Nat)
    (hsize : ¬ size > maxFileSize) :
    ((bytes.take 1024).any (fun b => b == 0) = true →
      processFile ⟨some size, some bytes⟩ rel true = ProcOutcome.ok ⟨rel, []⟩)
    ∧ ((bytes.take 1024).any (fun b => b == 0) = false →
      processFile ⟨some size, some bytes⟩ rel true
        = ProcOutcome.ok ⟨rel, bytes⟩) := by
  constructor <;> intro h <;> simp [processFile, isBinary, hsize, h]

set_option maxRecDepth 20000 in
/-- Witness for C4: a 1025-byte file whose only null byte is byte 1025 is
treated as non-binary and keeps its full content; a 2-byte file with a null
byte in the sample keeps its path and loses its content. -/
theorem c4_witness :
    processFile ⟨some 1025, some boundaryBytes⟩ "big.txt" true
      = ProcOutcome.ok ⟨"big.txt", boundaryBytes⟩
    ∧ processFile ⟨some 2, some [104, 0]⟩ "bin.dat" true
      = ProcOutcome.ok ⟨"bin.dat", []⟩ :=
  ⟨(c4_binary_sample_capped boundaryBytes "big.txt" 1025 (by decide)).2
      (by decide),
   (c4_binary_sample_capped [104, 0] "bin.dat" 2 (by decide)).1 (by decide)⟩

/-- C5: the cutoff is strict at 1 MiB: a file of exactly `maxFileSize`
(1048576) bytes produces a record carrying its path, while any strictly
larger file ends in the skip-and-log branch and contributes no record. -/
theorem c5_size_cutoff_strict (bytes : List Nat) (rel : String)
    (readContent : Bool) :
    maxFileSize = 1048576
    ∧ (∃ r, processFile ⟨some maxFileSize, some bytes⟩ rel readContent
          = ProcOutcome.ok r ∧ r.path = rel)
    ∧ (∀ (size : Nat) (content : Option (List Nat)), size > maxFileSize →
        processFile ⟨some size, content⟩ rel readContent
          = ProcOutcome.tooLarge size
        ∧ (processFile ⟨some size, content⟩ rel readContent).record?
          = none) := by
  refine ⟨rfl, ?_, ?_⟩
  · cases readContent
    · exact ⟨⟨rel, []⟩, by simp [processFile], rfl⟩
    · by_cases hb : isBinary bytes = true
      · exact ⟨⟨rel, []⟩, by simp [processFile, hb], rfl⟩
      · exact ⟨⟨rel, bytes⟩, by simp [processFile, hb], rfl⟩
  · intro size content hsize
    constructor <;> simp [processFile, hsize, ProcOutcome.record?]

/-- Witness for C5 at the boundary: 1048577 bytes is skipped with no record,
1048576 bytes produces a record. -/
theorem c5_witness :
    (1048577 : Nat) > maxFileSize
    ∧ processFile ⟨some 1048577, some [104]⟩ "big.bin" true
        = ProcOutcome.tooLarge 1048577
    ∧ processFile ⟨some maxFileSize, some [104]⟩ "ok.txt" true
        = ProcOutcome.ok ⟨"ok.txt", [104]⟩ :=
  ⟨by decide,
   ((c5_size_cutoff_strict [104] "big.bin" true).2.2 1048577 (some [104])
      (by decide)).1,
   by decide⟩

/-- C6 counterexample: in `list` format the line emitted for a surviving
file with relative path `a.txt` is `- a.txt` — a dash-space marker followed
by the path — not the relative path only. -/
theorem c6_counterexample :
    outputList [⟨"a.txt", []⟩] = ["- a.txt"]
    ∧ ("- a.txt" : String) ≠ "a.txt" := by
  constructor
  · rfl
  · decide

/-- C6 amended: in `list` format exactly one line is emitted per surviving
file, consisting of `"- "` followed by the relative path; `listFiles` passes
`readContent = false` in list mode, under which the read inside
`processFile` is never reached and every produced record has empty content. -/
theorem c6_list_mode (files : List FileContent) (fs : FileState)
    (rel : String) :
    (outputList files).length = files.length
    ∧ (∀ (i : Nat) (h1 : i < (outputList files).length)
        (h2 : i < files.length),
        (outputList files).get ⟨i, h1⟩ = "- " ++ (files.get ⟨i, h2⟩).path)
    ∧ readContentFlag "list" = false
    ∧ processReadsFile fs false = false
    ∧ (∀ r, (processFile fs rel false).record? = some r → r.content = []) := by
  refine ⟨by simp [outputList], ?_, by decide, ?_, ?_⟩
  · intro i h1 h2
    simp [outputList]
  · cases h : fs.statSize <;> simp [processReadsFile, h]
  · intro r hr
    cases h : fs.statSize with
    | none => simp [processFile, h, ProcOutcome.record?] at hr
    | some s =>
      by_cases hs : s > maxFileSize
      · simp [processFile, h, hs, ProcOutcome.record?] at hr
      · simp [processFile, h, hs, ProcOutcome.record?] at hr
        simp [← hr]

/-- Witness for C6 at one concrete record list and file state. -/
theorem c6_witness :
    (outputList [⟨"a.txt", [104]⟩]).get ⟨0, by simp [outputList]⟩
      = "- " ++ (([⟨"a.txt", [104]⟩] : List FileContent).get ⟨0, by simp⟩).path
    ∧ (∀ r, (processFile ⟨some 1, some [104]⟩ "a.txt" false).record? = some r →
        r.content = []) :=
  ⟨(c6_list_mode [⟨"a.txt", [104]⟩] ⟨some 1, some [104]⟩ "a.txt").2.1 0
      (by simp [outputList]) (by simp),
   (c6_list_mode [⟨"a.txt", [104]⟩] ⟨some 1, some [104]⟩ "a.txt").2.2.2.2⟩

/-- C7 counterexample: with the list flag set, the format check is bypassed:
an invocation with the unrecognized format value `bogus` does not abort but
proceeds to the traversal in list mode. -/
theorem c7_counterexample :
    cliAction true "bogus" true true = CliOutcome.run "list" := by decide

/-- C7 amended: only when the list flag is unset does a format value other
than `text` or `json` (the value `list` included) abort before traversal
with an error; with the list flag set, the format value is ignored and such
an invocation runs in list mode. -/
theorem c7_format_check_only_without_list_flag (dirExists excludeOk : Bool)
    (format : String) :
    (format ≠ "text" → format ≠ "json" →
      ∃ msg, cliAction dirExists format false excludeOk
        = CliOutcome.error msg)
    ∧ (∀ fmt : String, cliAction true fmt true true
        = CliOutcome.run "list") := by
  constructor
  · intro h1 h2
    cases dirExists
    · exact ⟨_, rfl⟩
    · refine ⟨"error: invalid format specified. Use 'text' or 'json'", ?_⟩
      simp [cliAction, h1, h2]
  · intro fmt
    rfl

/-- Witness for C7: even the recognized selector value `list`, given as the
format flag without the list flag, aborts. -/
theorem c7_witness :
    ∃ msg, cliAction true "list" false true = CliOutcome.error msg :=
  (c7_format_check_only_without_list_flag true true "list").1
    (by decide) (by decide)

/-- C8: a per-file failure (stat failure, oversize, or read failure) is
recoverable and atomic: that file yields no record, and the records the run
collects are exactly those of the other dispatched files — the failure never
surfaces beyond the failing `processFile` call. -/
theorem c8_per_file_failures_recoverable
    (xs ys : List (String × FileState)) (p : String) (fs : FileState)
    (readContent : Bool) (h : perFileFailure fs readContent) :
    (processFile fs p readContent).record? = none
    ∧ collectRecords readContent (xs ++ (p, fs) :: ys)
      = collectRecords readContent xs ++ collectRecords readContent ys := by
  have hnone : (processFile fs p readContent).record? = none := by
    rcases h with h | ⟨s, hs, hgt⟩ | ⟨hrc, hc, s, hs, hle⟩
    · simp [processFile, h, ProcOutcome.record?]
    · simp [processFile, hs, hgt, ProcOutcome.record?]
    · simp [processFile, hs, hle, hrc, hc, ProcOutcome.record?]
  refine ⟨hnone, ?_⟩
  simp [collectRecords, List.filterMap_append, List.filterMap_cons, hnone]

/-- Witness for C8: a stat-failing file between two healthy files drops out
while both neighbours keep their records. -/
theorem c8_witness :
    perFileFailure ⟨none, none⟩ true
    ∧ collectRecords true
        ([("a.txt", ⟨some 1, some [104]⟩)]
          ++ ("bad", ⟨none, none⟩) :: [("b.txt", ⟨some 1, some [105]⟩)])
      = collectRecords true [("a.txt", ⟨some 1, some [104]⟩)]
        ++ collectRecords true [("b.txt", ⟨some 1, some [105]⟩)] :=
  ⟨Or.inl rfl,
   (c8_per_file_failures_recoverable [("a.txt", ⟨some 1, some [104]⟩)]
      [("b.txt", ⟨some 1, some [105]⟩)] "bad" ⟨none, none⟩ true
      (Or.inl rfl)).2⟩

/-- C9: two runs over the same unmodified tree with the same parameters
produce the same records up to order: any two final states of the shared
slice are permutations of each other, with equal counts for every record. -/
theorem c9_runs_agree_as_sets (se : String → String → Bool) (t : FSEntry)
    (rel : String) (readContent : Bool) (out1 out2 : List FileContent)
    (h1 : RunOutput se t rel readContent out1)
    (h2 : RunOutput se t rel readContent out2) :
    List.Perm out1 out2 ∧ ∀ r : FileContent, out1.count r = out2.count r := by
  have hp : List.Perm out1 out2 := h1.trans h2.symm
  exact ⟨hp, fun r => hp.count_eq r⟩

/-- Witness for C9: the dispatch-order output and its reversal are both
possible outputs of a run over `sampleTree`, and they agree as multisets. -/
theorem c9_witness :
    List.Perm (canonicalRecords builtinSE sampleTree "." true)
      (canonicalRecords builtinSE sampleTree "." true).reverse :=
  (c9_runs_agree_as_sets builtinSE sampleTree "." true
      (canonicalRecords builtinSE sampleTree "." true)
      (canonicalRecords builtinSE sampleTree "." true).reverse
      (List.Perm.refl _) (List.reverse_perm _)).1

/-- C10: `shouldExclude` applies the excluded directory names to the base
name of every walk entry, directories or not: any entry named exactly one of
the built-in excluded directory names is excluded at any relative path and
with any matcher and custom patterns, and a regular file so named is never
dispatched. -/
theorem c10_dir_names_exclude_regular_files (n : String)
    (hn : n ∈ excludedDirs) (rel : String) (matcher : String → Bool)
    (custom : List (String → Bool)) (fs : FileState) :
    shouldExclude n rel matcher custom = true
    ∧ walkEntry (fun nm rp => shouldExclude nm rp matcher custom)
        (FSEntry.file n fs) rel = [] := by
  have h : shouldExclude n rel matcher custom = true := by
    have hd : excludedDirs.any
        (fun dir => n == dir || strStarts (dir ++ pathSep) rel) = true := by
      rw [List.any_eq_true]
      exact ⟨n, hn, by simp⟩
    simp [shouldExclude, hd]
  exact ⟨h, by simp [walkEntry, h]⟩

/-- Witness for C10: a regular file named `out` at depth one is excluded and
not dispatched. -/
theorem c10_witness :
    shouldExclude "out" "src/out" noMatcher [] = true
    ∧ walkEntry (fun nm rp => shouldExclude nm rp noMatcher [])
        (FSEntry.file "out" ⟨some 3, some [1, 2, 3]⟩) "src/out" = [] :=
  c10_dir_names_exclude_regular_files "out" (by decide) "src/out" noMatcher []
    ⟨some 3, some [1, 2, 3]⟩

end Srccat
